import Mathlib

/-!
Verification development for the custom-LLM-endpoint slice of the `sim`
repository: the compound-model-name parser, the workspace-scoped endpoint
credential store, the request dispatcher, and the per-endpoint HTTP route
handlers.

Strings are embedded as `List Char` (named `Str`) so that the character-level
operations of the TypeScript source (prefix stripping, splitting at the first
slash, emptiness/truthiness tests) are directly expressible and provable.
JavaScript `undefined`/`null` optionality is embedded as `Option`, and
JavaScript string truthiness (the empty string is falsy) is modelled
explicitly.  Thrown exceptions are embedded as `Except` errors; a caught and
swallowed decryption exception is an `Option` that is `none`.

The encryption primitive and the JSON codec for header records are opaque
external services in the source; they appear here as the fields of a `Crypto`
environment.  The external collaborators of the dispatcher (provider
registry, billing utilities, BYOK key lookup, structured-output instruction
generator) appear as the fields of a `DispatchEnv` environment.
-/

namespace SimCustomLlm

/-- Characters of a JavaScript string. -/
abbrev Str := List Char

/-- JavaScript truthiness of a string: the empty string is falsy. -/
def strTruthy (s : Str) : Bool := !s.isEmpty

/-- JavaScript truthiness of a possibly-absent string (absent, `null` and
the empty string are all falsy). -/
def optStrTruthy (o : Option Str) : Bool :=
  match o with
  | some s => strTruthy s
  | none => false

/-- JavaScript `a || b` for a possibly-absent string `a`: yields `b` when
`a` is absent or empty. -/
def jsOrStr (o : Option Str) (dflt : Str) : Str :=
  match o with
  | some s => if s.isEmpty then dflt else s
  | none => dflt

/-- A character is ASCII whitespace (the cases of JavaScript
`String.prototype.trim` relevant to this model). -/
def isWsChar (ch : Char) : Bool :=
  ch = ' ' || ch = '\n' || ch = '\t' || ch = '\r'

/-- JavaScript `trim()`: drop whitespace from both ends. -/
def trimStr (s : Str) : Str :=
  ((s.dropWhile isWsChar).reverse.dropWhile isWsChar).reverse

/-! ## Model-identifier parser

Embeds `parseCustomAnthropicModel` (src/apps/sim/providers/custom-anthropic/utils.ts)
and `parseCustomGoogleModel` (src/unnamed/part_003), which differ only in the
family tag of the anchored `replace` regex. -/

/-- Result record of the parsers: `{ endpointName, modelName }`. -/
structure ParsedCustomModel where
  endpointName : Str
  modelName : Str
deriving DecidableEq

/-- Splits at the first `'/'`: embeds `indexOf('/')` followed by the two
`slice` calls.  `none` when the string has no slash. -/
def splitAtSlash : Str → Option (Str × Str)
  | [] => none
  | ch :: rest =>
    if ch = '/' then some ([], rest)
    else
      match splitAtSlash rest with
      | none => none
      | some p => some (ch :: p.1, p.2)

/-- Embeds `model.replace(/^FAM:/, '')`: removes the leading tag when present,
otherwise leaves the string unchanged. -/
def dropFamilyTag (tag s : Str) : Str :=
  if tag.isPrefixOf s then s.drop tag.length else s

/-- The shared body of the per-family parsers: strip the anchored `FAM:` tag
if present, then split the remainder at its first slash; with no slash the
endpoint name is empty and the whole remainder is the model name. -/
def parseCustomModelRef (fam model : Str) : ParsedCustomModel :=
  let withoutTag := dropFamilyTag (fam ++ [':']) model
  match splitAtSlash withoutTag with
  | none => { endpointName := [], modelName := withoutTag }
  | some p => { endpointName := p.1, modelName := p.2 }

/-- Embeds `parseCustomAnthropicModel` from
src/apps/sim/providers/custom-anthropic/utils.ts. -/
def parseCustomAnthropicModel (model : Str) : ParsedCustomModel :=
  parseCustomModelRef "custom-anthropic".data model

/-- Embeds `parseCustomGoogleModel` from src/unnamed/part_003. -/
def parseCustomGoogleModel (model : Str) : ParsedCustomModel :=
  parseCustomModelRef "custom-google".data model

/-- Modelled from the spec: `parseCustomOpenAIModel` itself is not under
src/ (only its import and call sites are); per the spec the parser contract
is the same for every family tag, here `custom-openai`. -/
def parseCustomOpenAIModel (model : Str) : ParsedCustomModel :=
  parseCustomModelRef "custom-openai".data model

/-! ## Credential store

Embeds src/apps/sim/lib/custom-llm/endpoints.ts over a relational table
modelled as a list of rows (src/unnamed/part_000 gives the row layout: id is
the primary key and `(workspace_id, name)` carries a unique index, which the
embedded insert enforces the way the database engine does). -/

/-- A row of the `custom_llm_endpoints` table. -/
structure EndpointRow where
  id : Str
  workspaceId : Str
  name : Str
  baseUrl : Str
  apiType : Option Str
  encryptedApiKey : Option Str
  encryptedHeaders : Option Str
  createdBy : Option Str
  createdAt : Nat
  updatedAt : Nat
deriving DecidableEq

/-- The table contents. -/
abbrev DB := List EndpointRow

/-- The opaque encryption and JSON-codec services consumed by the store.
`decryptSecret` returning `none` embeds a thrown decryption error;
`decodeHeaders` returning `none` embeds a `JSON.parse` failure. -/
structure Crypto where
  encryptSecret : Str → Str
  decryptSecret : Str → Option Str
  encodeHeaders : List (Str × Str) → Str
  decodeHeaders : Str → Option (List (Str × Str))

/-- The `CustomLlmEndpoint` interface: list/detail view without secrets. -/
structure CustomLlmEndpoint where
  id : Str
  workspaceId : Str
  name : Str
  baseUrl : Str
  apiType : Str
  hasApiKey : Bool
  headerNames : List Str
  createdBy : Option Str
  createdAt : Nat
  updatedAt : Nat
deriving DecidableEq

/-- The `CustomLlmEndpointWithCredentials` interface: resolution view with
decrypted secrets. -/
structure CustomLlmEndpointWithCredentials where
  id : Str
  workspaceId : Str
  name : Str
  baseUrl : Str
  apiType : Str
  apiKey : Option Str
  headers : Option (List (Str × Str))
  createdBy : Option Str
  createdAt : Nat
  updatedAt : Nat
deriving DecidableEq

/-- Predicate of the `where(and(eq(workspaceId), eq(name)))` query. -/
def rowMatchesWsName (ws n : Str) (r : EndpointRow) : Bool :=
  r.workspaceId == ws && r.name == n

/-- Predicate of the `where(eq(id))` query. -/
def rowMatchesId (i : Str) (r : EndpointRow) : Bool :=
  r.id == i

/-- Embeds the guarded decryption of one secret field:
`if (blob) { try { decrypt } catch { leave null } }`. -/
def decryptOptionalSecret (c : Crypto) (blob : Option Str) : Option Str :=
  match blob with
  | some b => if b.isEmpty then none else c.decryptSecret b
  | none => none

/-- Embeds the guarded decrypt-then-`JSON.parse` of the headers field:
`if (blob) { try { decrypt; parse } catch { leave null } }`. -/
def decryptOptionalHeaders (c : Crypto) (blob : Option Str) :
    Option (List (Str × Str)) :=
  match blob with
  | some b => if b.isEmpty then none else (c.decryptSecret b).bind c.decodeHeaders
  | none => none

/-- Embeds `getCustomEndpointByName` (endpoints.ts lines 102 to 168): first
row matching workspace and name (`limit(1)`), each secret field decrypted
under its own failure boundary. -/
def getCustomEndpointByName (c : Crypto) (db : DB) (workspaceId endpointName : Str) :
    Option CustomLlmEndpointWithCredentials :=
  match db.find? (rowMatchesWsName workspaceId endpointName) with
  | none => none
  | some r =>
    some {
      id := r.id
      workspaceId := r.workspaceId
      name := r.name
      baseUrl := r.baseUrl
      apiType := jsOrStr r.apiType "openai".data
      apiKey := decryptOptionalSecret c r.encryptedApiKey
      headers := decryptOptionalHeaders c r.encryptedHeaders
      createdBy := r.createdBy
      createdAt := r.createdAt
      updatedAt := r.updatedAt }

/-- Embeds `getCustomEndpointById` (endpoints.ts lines 173 to 231). -/
def getCustomEndpointById (c : Crypto) (db : DB) (endpointId : Str) :
    Option CustomLlmEndpointWithCredentials :=
  match db.find? (rowMatchesId endpointId) with
  | none => none
  | some r =>
    some {
      id := r.id
      workspaceId := r.workspaceId
      name := r.name
      baseUrl := r.baseUrl
      apiType := jsOrStr r.apiType "openai".data
      apiKey := decryptOptionalSecret c r.encryptedApiKey
      headers := decryptOptionalHeaders c r.encryptedHeaders
      createdBy := r.createdBy
      createdAt := r.createdAt
      updatedAt := r.updatedAt }

/-- The `CreateCustomEndpointParams` interface. -/
structure CreateCustomEndpointParams where
  id : Str
  workspaceId : Str
  name : Str
  baseUrl : Str
  apiType : Option Str
  apiKey : Option Str
  headers : Option (List (Str × Str))
  createdBy : Str
deriving DecidableEq

/-- The row inserted by `createCustomEndpoint`: `if (params.apiKey)` is
JavaScript truthiness, so an empty-string key is stored as absent, and the
headers mapping is encrypted as one JSON blob only when it has at least one
key. -/
def createdRow (c : Crypto) (now : Nat) (p : CreateCustomEndpointParams) : EndpointRow :=
  { id := p.id
    workspaceId := p.workspaceId
    name := p.name
    baseUrl := p.baseUrl
    apiType := some (jsOrStr p.apiType "openai".data)
    encryptedApiKey :=
      match p.apiKey with
      | some k => if k.isEmpty then none else some (c.encryptSecret k)
      | none => none
    encryptedHeaders :=
      match p.headers with
      | some hs => if hs.length > 0 then some (c.encryptSecret (c.encodeHeaders hs)) else none
      | none => none
    createdBy := some p.createdBy
    createdAt := now
    updatedAt := now }

/-- The `headerNames` returned by creation: derived from the input mapping
(pre-encryption), never by round-tripping through decryption. -/
def createdHeaderNames (p : CreateCustomEndpointParams) : List Str :=
  match p.headers with
  | some hs => if hs.length > 0 then hs.map (fun kv => kv.1) else []
  | none => []

/-- The record returned by creation. -/
def createdEndpointView (c : Crypto) (now : Nat) (p : CreateCustomEndpointParams) :
    CustomLlmEndpoint :=
  { id := p.id
    workspaceId := p.workspaceId
    name := p.name
    baseUrl := p.baseUrl
    apiType := jsOrStr (createdRow c now p).apiType "openai".data
    hasApiKey := optStrTruthy (createdRow c now p).encryptedApiKey
    headerNames := createdHeaderNames p
    createdBy := some p.createdBy
    createdAt := now
    updatedAt := now }

/-- Embeds `createCustomEndpoint` (endpoints.ts lines 247 to 305).  The
insert respects the primary key and the `(workspace_id, name)` unique index
of src/unnamed/part_000 the way the database engine does, raising (as an
`Except.error`) on a conflict. -/
def createCustomEndpoint (c : Crypto) (now : Nat) (db : DB)
    (p : CreateCustomEndpointParams) : Except Str (DB × CustomLlmEndpoint) :=
  if db.any (fun r => r.id == p.id || (r.workspaceId == p.workspaceId && r.name == p.name)) then
    .error "duplicate key value violates unique constraint".data
  else
    .ok (db ++ [createdRow c now p], createdEndpointView c now p)

/-- The `UpdateCustomEndpointParams` interface: the outer `Option` is
"present in the partial", the inner `Option` distinguishes an explicit
`null` (clear the secret) from a value. -/
structure UpdateCustomEndpointParams where
  name : Option Str := none
  baseUrl : Option Str := none
  apiKey : Option (Option Str) := none
  headers : Option (Option (List (Str × Str))) := none
deriving DecidableEq

/-- The row produced by the `set` clause of `updateCustomEndpoint`: each
column changes only when the corresponding field is present in the partial,
`updatedAt` always refreshes, and a present-but-null secret clears the
stored blob. -/
def applyEndpointUpdates (c : Crypto) (now : Nat) (p : UpdateCustomEndpointParams)
    (r : EndpointRow) : EndpointRow :=
  { r with
    updatedAt := now
    name := p.name.getD r.name
    baseUrl := p.baseUrl.getD r.baseUrl
    encryptedApiKey :=
      match p.apiKey with
      | none => r.encryptedApiKey
      | some none => none
      | some (some k) => some (c.encryptSecret k)
    encryptedHeaders :=
      match p.headers with
      | none => r.encryptedHeaders
      | some none => none
      | some (some hs) =>
        if hs.length > 0 then some (c.encryptSecret (c.encodeHeaders hs)) else none }

/-- The `headerNames` returned by an update: taken from the partial when it
mentions headers (the empty list for an explicit null or an empty mapping),
otherwise recovered by decrypting the stored blob — which, headers being
absent from the partial, is the row's previous blob — degrading to the
empty list when the blob is absent or fails to decrypt or parse. -/
def updatedHeaderNames (c : Crypto) (p : UpdateCustomEndpointParams) (r : EndpointRow) :
    List Str :=
  match p.headers with
  | some none => []
  | some (some hs) => if hs.length > 0 then hs.map (fun kv => kv.1) else []
  | none =>
    match decryptOptionalHeaders c r.encryptedHeaders with
    | some hs => hs.map (fun kv => kv.1)
    | none => []

/-- The record returned by an update. -/
def updatedEndpointView (c : Crypto) (now : Nat) (p : UpdateCustomEndpointParams)
    (r : EndpointRow) : CustomLlmEndpoint :=
  { id := (applyEndpointUpdates c now p r).id
    workspaceId := (applyEndpointUpdates c now p r).workspaceId
    name := (applyEndpointUpdates c now p r).name
    baseUrl := (applyEndpointUpdates c now p r).baseUrl
    apiType := jsOrStr (applyEndpointUpdates c now p r).apiType "openai".data
    hasApiKey := optStrTruthy (applyEndpointUpdates c now p r).encryptedApiKey
    headerNames := updatedHeaderNames c p r
    createdBy := (applyEndpointUpdates c now p r).createdBy
    createdAt := (applyEndpointUpdates c now p r).createdAt
    updatedAt := (applyEndpointUpdates c now p r).updatedAt }

/-- Embeds `updateCustomEndpoint` (endpoints.ts lines 317 to 405): throws
(as `Except.error`) when no row has the id; otherwise rewrites the matching
row through `applyEndpointUpdates` and returns `updatedEndpointView`. -/
def updateCustomEndpoint (c : Crypto) (now : Nat) (db : DB) (endpointId : Str)
    (p : UpdateCustomEndpointParams) : Except Str (DB × CustomLlmEndpoint) :=
  match db.find? (rowMatchesId endpointId) with
  | none => .error ("Endpoint with ID ".data ++ endpointId ++ " not found".data)
  | some r =>
    .ok (db.map (fun row => if rowMatchesId endpointId row then applyEndpointUpdates c now p row else row),
      updatedEndpointView c now p r)

/-- Embeds `deleteCustomEndpoint` (endpoints.ts lines 410 to 419): hard
delete of every row with the id, idempotent. -/
def deleteCustomEndpoint (db : DB) (endpointId : Str) : DB :=
  db.filter (fun r => !(rowMatchesId endpointId r))

/-- Embeds `isEndpointNameAvailable` (endpoints.ts lines 424 to 452): fetch
the first row matching workspace and name; available when there is none, or
when `excludeId` is truthy (JavaScript: present and non-empty) and equals
that row's id. -/
def isEndpointNameAvailable (db : DB) (workspaceId name : Str)
    (excludeId : Option Str) : Bool :=
  match db.find? (rowMatchesWsName workspaceId name) with
  | none => true
  | some r =>
    match excludeId with
    | some ex => strTruthy ex && r.id == ex
    | none => false

/-! ## Request dispatcher

Embeds `executeProviderRequest` and its helpers from the providers index
module (src/unnamed/part_002's sibling, the second half of
src/apps/sim/providers/custom-google/index.ts's compilation unit in
src/unnamed). -/

/-- The request's `responseFormat` is either a JSON string or some other
JSON value; the dispatcher only inspects whether it is the empty string. -/
inductive ResponseFormat where
  | str (s : Str)
  | obj (payload : Str)
deriving DecidableEq

/-- JavaScript truthiness of a response format: the empty string is falsy,
every object is truthy. -/
def formatTruthy : ResponseFormat → Bool
  | .str s => strTruthy s
  | .obj _ => true

/-- The fields of `ProviderRequest` that the dispatcher reads or writes. -/
structure ProviderRequest where
  model : Str
  workspaceId : Option Str := none
  apiKey : Option Str := none
  systemPrompt : Option Str := none
  responseFormat : Option ResponseFormat := none
  temperature : Option Int := none
  context : Option Str := none
  stream : Bool := false
  customOpenaiBaseUrl : Option Str := none
  customOpenaiEndpointName : Option Str := none
  customOpenaiHeaders : Option (List (Str × Str)) := none
  customAnthropicBaseUrl : Option Str := none
  customAnthropicEndpointName : Option Str := none
  customAnthropicHeaders : Option (List (Str × Str)) := none
  customGoogleBaseUrl : Option Str := none
  customGoogleEndpointName : Option Str := none
  customGoogleHeaders : Option (List (Str × Str)) := none
  isBYOK : Bool := false
deriving DecidableEq

/-- Token usage of a response; the dispatcher defaults each side to 0. -/
structure TokenUsage where
  input : Option Nat := none
  output : Option Nat := none
deriving DecidableEq

/-- The pricing block of a computed cost.  Cost amounts are modelled as
integers: the claims about this core only distinguish a zero from a
nonzero total, and the amounts themselves come from the external billing
collaborator. -/
structure CostPricing where
  input : Int
  output : Int
  updatedAt : Str
deriving DecidableEq

/-- The cost block attached to a billable response. -/
structure Cost where
  input : Int
  output : Int
  total : Int
  pricing : CostPricing
deriving DecidableEq

/-- A non-streaming provider response. -/
structure ProviderResponse where
  content : Str := []
  model : Str
  tokens : Option TokenUsage := none
  cost : Option Cost := none
deriving DecidableEq

/-- What a provider's `executeRequest` can return: a plain response, a
`ReadableStream`, or a `StreamingExecution`. -/
inductive ExecResult where
  | response (r : ProviderResponse)
  | readableStream
  | streamingExecution
deriving DecidableEq

/-- A registry entry: `executeRequest` is optional, matching the
`ProviderConfig` capability check of the dispatcher. -/
structure Provider where
  executeRequest : Option (ProviderRequest → ExecResult)

/-- Modelled from the spec: the external collaborators consumed by the
dispatcher, none of which live under src/ — the provider registry
(`getProviderExecutor`), the sanitation predicate (`supportsTemperature`),
the generic BYOK credential resolver (`getApiKeyWithBYOK`, returning a key
and the `isBYOK` classification), the structured-output instruction
generator, and the billing utilities (`shouldBillModelUsage`,
`getCostMultiplier`, `calculateCost`). -/
structure DispatchEnv where
  registry : Str → Option Provider
  supportsTemperature : Str → Bool
  getApiKeyWithBYOK : Str → Str → Str → Option Str → Except Str (Str × Bool)
  generateStructuredOutputInstructions : ResponseFormat → Str
  shouldBillModelUsage : Str → Bool
  getCostMultiplier : Int
  calculateCost : Str → Nat → Nat → Bool → Int → Int → Cost
  nowIso : Str

/-- Embeds `sanitizeRequest`: drops the temperature override when the model
does not support one. -/
def sanitizeRequest (env : DispatchEnv) (r : ProviderRequest) : ProviderRequest :=
  if strTruthy r.model && !env.supportsTemperature r.model then
    { r with temperature := none }
  else r

/-- The fatal user-facing message of an unresolvable custom endpoint name. -/
def endpointNotFoundMessage (endpointName : Str) : Str :=
  "Custom LLM endpoint \"".data ++ endpointName ++
    "\" not found. Please configure it in workspace settings.".data

/-- Embeds the resolution branch of `executeProviderRequest`: for each of
the three custom families with a truthy `workspaceId`, parse the model
reference and, when an endpoint name was extracted, resolve it (a missing
endpoint is a rethrown fatal error) and merge base URL, endpoint name,
headers and the key (defaulting to the sentinel "empty") under the
family-specific field names; for any other provider with a workspace,
resolve through the generic BYOK mechanism, which alone can set the
`isBYOK` flag.  Parsing and lookup read the original `request`; the merge
builds on the sanitized request `r1`. -/
def resolveStep (env : DispatchEnv) (c : Crypto) (db : DB) (providerId : Str)
    (request r1 : ProviderRequest) : Except Str (ProviderRequest × Bool) :=
  if providerId == "custom-openai".data && optStrTruthy request.workspaceId then
    let parsed := parseCustomOpenAIModel request.model
    if strTruthy parsed.endpointName then
      match getCustomEndpointByName c db (request.workspaceId.getD []) parsed.endpointName with
      | none => .error (endpointNotFoundMessage parsed.endpointName)
      | some cfg =>
        .ok ({ r1 with
          customOpenaiBaseUrl := some cfg.baseUrl
          customOpenaiEndpointName := some cfg.name
          customOpenaiHeaders := cfg.headers
          apiKey := some (jsOrStr cfg.apiKey "empty".data) }, false)
    else .ok (r1, false)
  else if providerId == "custom-anthropic".data && optStrTruthy request.workspaceId then
    let parsed := parseCustomAnthropicModel request.model
    if strTruthy parsed.endpointName then
      match getCustomEndpointByName c db (request.workspaceId.getD []) parsed.endpointName with
      | none => .error (endpointNotFoundMessage parsed.endpointName)
      | some cfg =>
        .ok ({ r1 with
          customAnthropicBaseUrl := some cfg.baseUrl
          customAnthropicEndpointName := some cfg.name
          customAnthropicHeaders := cfg.headers
          apiKey := some (jsOrStr cfg.apiKey "empty".data) }, false)
    else .ok (r1, false)
  else if providerId == "custom-google".data && optStrTruthy request.workspaceId then
    let parsed := parseCustomGoogleModel request.model
    if strTruthy parsed.endpointName then
      match getCustomEndpointByName c db (request.workspaceId.getD []) parsed.endpointName with
      | none => .error (endpointNotFoundMessage parsed.endpointName)
      | some cfg =>
        .ok ({ r1 with
          customGoogleBaseUrl := some cfg.baseUrl
          customGoogleEndpointName := some cfg.name
          customGoogleHeaders := cfg.headers
          apiKey := some (jsOrStr cfg.apiKey "empty".data) }, false)
    else .ok (r1, false)
  else if optStrTruthy request.workspaceId then
    match env.getApiKeyWithBYOK providerId request.model (request.workspaceId.getD []) request.apiKey with
    | .error e => .error e
    | .ok kb => .ok ({ r1 with apiKey := some kb.1 }, kb.2)
  else .ok (r1, false)

/-- Embeds the structured-output step: the whole block is guarded by the
JavaScript truthiness of `responseFormat`, so an empty-string format skips
it entirely (the inner branch that would clear the field can only be
reached by the empty string and is therefore dead); a truthy format has
instructions derived and, when their trim is non-empty, appended to the
system prompt. -/
def applyResponseFormat (env : DispatchEnv) (r : ProviderRequest) : ProviderRequest :=
  match r.responseFormat with
  | none => r
  | some fmt =>
    if !formatTruthy fmt then r
    else if fmt == ResponseFormat.str [] then { r with responseFormat := none }
    else
      let instructions := env.generateStructuredOutputInstructions fmt
      if strTruthy (trimStr instructions) then
        let originalPrompt := jsOrStr r.systemPrompt []
        let appended := trimStr (originalPrompt ++ "\n\n".data ++ instructions)
        { r with systemPrompt := some appended }
      else r

/-- Embeds the cost post-processing: when the response carries token usage,
bill through `calculateCost` only when the model is billable and the call
was not BYOK; otherwise force a zero cost block. -/
def applyCost (env : DispatchEnv) (request : ProviderRequest) (isBYOK : Bool)
    (resp : ProviderResponse) : ProviderResponse :=
  match resp.tokens with
  | none => resp
  | some t =>
    let promptTokens := t.input.getD 0
    let completionTokens := t.output.getD 0
    let useCachedInput := optStrTruthy request.context &&
      (request.context.getD []).length > 0
    let shouldBill := env.shouldBillModelUsage resp.model && !isBYOK
    if shouldBill then
      let mult := env.getCostMultiplier
      let billed := env.calculateCost resp.model promptTokens completionTokens useCachedInput mult mult
      { resp with cost := some billed }
    else
      let zeroCost : Cost :=
        { input := 0, output := 0, total := 0,
          pricing := { input := 0, output := 0, updatedAt := env.nowIso } }
      { resp with cost := some zeroCost }

/-- Embeds `executeProviderRequest`.  The second component of the result is
the trace of requests handed to the provider's `executeRequest`; an empty
trace means no outbound call was issued. -/
def executeProviderRequest (env : DispatchEnv) (c : Crypto) (db : DB)
    (providerId : Str) (request : ProviderRequest) :
    Except Str ExecResult × List ProviderRequest :=
  match env.registry providerId with
  | none => (.error ("Provider not found: ".data ++ providerId), [])
  | some provider =>
    match provider.executeRequest with
    | none =>
      (.error ("Provider ".data ++ providerId ++ " does not implement executeRequest".data), [])
    | some exec =>
      let r1 := sanitizeRequest env request
      match resolveStep env c db providerId request r1 with
      | .error e => (.error e, [])
      | .ok rb =>
        let isBYOK := rb.2
        let r3 := { rb.1 with isBYOK := isBYOK }
        let r4 := applyResponseFormat env r3
        match exec r4 with
        | .streamingExecution => (.ok .streamingExecution, [r4])
        | .readableStream => (.ok .readableStream, [r4])
        | .response resp => (.ok (.response (applyCost env request isBYOK resp)), [r4])

/-! ## Per-endpoint HTTP route handlers

Embeds the GET, PATCH and DELETE handlers of src/unnamed/part_002 (the
`.../custom-llm-endpoints/[endpointId]` route).  Session, permission and
request-body parsing are the external boilerplate; they enter as data. -/

/-- The authentication context of one request: the session's user id (when
logged in) and the user's permission string for the workspace. -/
structure RouteCtx where
  session : Option Str
  permission : Option Str
deriving DecidableEq

/-- A route handler's outcome: an error response with its HTTP status, or
the route-specific success payload. -/
inductive RouteResponse where
  | failure (status : Nat) (msg : Str)
  | okEndpoint (e : CustomLlmEndpoint)
  | okUpdated (e : CustomLlmEndpoint)
  | okDeleted
deriving DecidableEq

/-- The sanitized view the per-endpoint GET returns: secrets replaced by
`hasApiKey` (truthiness of the decrypted key) and `headerNames`. -/
def publicViewOf (ep : CustomLlmEndpointWithCredentials) : CustomLlmEndpoint :=
  { id := ep.id
    workspaceId := ep.workspaceId
    name := ep.name
    baseUrl := ep.baseUrl
    apiType := ep.apiType
    hasApiKey := optStrTruthy ep.apiKey
    headerNames := (match ep.headers with | some hs => hs.map (·.1) | none => [])
    createdBy := ep.createdBy
    createdAt := ep.createdAt
    updatedAt := ep.updatedAt }

/-- Embeds the per-endpoint GET handler (src/unnamed/part_002 lines 148 to
202): 401 without a session or permission, then a single 404 shape both
when the id does not exist and when it belongs to another workspace. -/
def endpointRouteGET (c : Crypto) (db : DB) (ctx : RouteCtx)
    (workspaceId endpointId : Str) : RouteResponse :=
  if !optStrTruthy ctx.session then .failure 401 "Unauthorized".data
  else if !optStrTruthy ctx.permission then .failure 401 "Unauthorized".data
  else
    match getCustomEndpointById c db endpointId with
    | none => .failure 404 "Endpoint not found".data
    | some ep =>
      if ep.workspaceId ≠ workspaceId then .failure 404 "Endpoint not found".data
      else .okEndpoint (publicViewOf ep)

/-- The 409 message of a name collision. -/
def nameConflictMessage (nm : Str) : Str :=
  "An endpoint with the name \"".data ++ nm ++
    "\" already exists in this workspace".data

/-- Embeds the per-endpoint PATCH handler (src/unnamed/part_002 lines 204
to 268): 401/403 auth gates, the uniform 404 for a missing or
cross-workspace id, body validation (given here as an already-parsed
`Except`), the rename availability check, then the store update. -/
def endpointRoutePATCH (c : Crypto) (now : Nat) (db : DB) (ctx : RouteCtx)
    (workspaceId endpointId : Str) (body : Except Str UpdateCustomEndpointParams) :
    RouteResponse × DB :=
  if !optStrTruthy ctx.session then (.failure 401 "Unauthorized".data, db)
  else if ctx.permission ≠ some "admin".data then
    (.failure 403 "Only workspace admins can manage custom LLM endpoints".data, db)
  else
    match getCustomEndpointById c db endpointId with
    | none => (.failure 404 "Endpoint not found".data, db)
    | some existing =>
      if existing.workspaceId ≠ workspaceId then
        (.failure 404 "Endpoint not found".data, db)
      else
        match body with
        | .error msg => (.failure 400 msg, db)
        | .ok p =>
          let isRenaming :=
            match p.name with
            | some nm => strTruthy nm && nm != existing.name
            | none => false
          if isRenaming &&
              !(isEndpointNameAvailable db workspaceId (p.name.getD []) (some endpointId)) then
            (.failure 409 (nameConflictMessage (p.name.getD [])), db)
          else
            match updateCustomEndpoint c now db endpointId p with
            | .error msg => (.failure 500 msg, db)
            | .ok res => (.okUpdated res.2, res.1)

/-- Embeds the per-endpoint DELETE handler (src/unnamed/part_002 lines 270
to 312): 401/403 auth gates, the uniform 404 for a missing or
cross-workspace id, then the hard delete. -/
def endpointRouteDELETE (c : Crypto) (db : DB) (ctx : RouteCtx)
    (workspaceId endpointId : Str) : RouteResponse × DB :=
  if !optStrTruthy ctx.session then (.failure 401 "Unauthorized".data, db)
  else if ctx.permission ≠ some "admin".data then
    (.failure 403 "Only workspace admins can manage custom LLM endpoints".data, db)
  else
    match getCustomEndpointById c db endpointId with
    | none => (.failure 404 "Endpoint not found".data, db)
    | some existing =>
      if existing.workspaceId ≠ workspaceId then
        (.failure 404 "Endpoint not found".data, db)
      else
        (.okDeleted, deleteCustomEndpoint db endpointId)

/-! ## Concrete environment instances

Executable instances of the opaque services, used to evaluate the embedded
operations at concrete inputs.  `tableCrypto` tags ciphertexts with a
leading 'E' (so decryption inverts encryption and rejects untagged blobs)
and carries a small table-backed header codec. -/

/-- A sample header mapping. -/
def hdrA : List (Str × Str) := [("X-Auth".data, "tok".data)]

/-- An executable `Crypto`: encryption prepends 'E', decryption strips it
(failing on anything untagged), and the header codec is a finite table. -/
def tableCrypto : Crypto := {
  encryptSecret := fun s => 'E' :: s
  decryptSecret := fun s =>
    match s with
    | [] => none
    | ch :: t => if ch = 'E' then some t else none
  encodeHeaders := fun hs => if hs = hdrA then "HA".data else "H0".data
  decodeHeaders := fun s =>
    if s = "HA".data then some hdrA
    else if s = "H0".data then some [] else none }

/-- An executor that behaves like the custom-family executors: it strips
the compound model reference and reports the bare model name on the
response, together with fixed token usage. -/
def echoProviderExec (r : ProviderRequest) : ExecResult :=
  .response {
    content := "ok".data
    model := (parseCustomOpenAIModel r.model).modelName
    tokens := some { input := some 10, output := some 5 }
    cost := none }

/-- A registry knowing the three custom families and plain openai, each
with `echoProviderExec`. -/
def testRegistry (pid : Str) : Option Provider :=
  if pid == "custom-openai".data || pid == "custom-anthropic".data ||
      pid == "custom-google".data || pid == "openai".data then
    some { executeRequest := some echoProviderExec }
  else none

/-- Modelled from the spec: an executable `DispatchEnv` instance.  Billing
follows the spec's shape — `shouldBillModelUsage` recognises the hosted
billable models (here the singleton gpt-4o), and `calculateCost` prices
tokens linearly through the multipliers. -/
def testEnv : DispatchEnv := {
  registry := testRegistry
  supportsTemperature := fun _ => true
  getApiKeyWithBYOK := fun _ _ _ k => .ok (jsOrStr k "platform-key".data, false)
  generateStructuredOutputInstructions := fun _ => "Respond with JSON.".data
  shouldBillModelUsage := fun m => m == "gpt-4o".data
  getCostMultiplier := 1
  calculateCost := fun _ promptTokens completionTokens _ multIn multOut => {
    input := (promptTokens : Int) * multIn
    output := (completionTokens : Int) * multOut
    total := (promptTokens : Int) * multIn + (completionTokens : Int) * multOut
    pricing := { input := multIn, output := multOut, updatedAt := "2026-10-11".data } }
  nowIso := "2026-10-11".data }

/-- Projects the billed total out of a dispatch outcome. -/
def dispatchedCostTotal (res : Except Str ExecResult × List ProviderRequest) : Option Int :=
  match res.1 with
  | .ok (.response r) => r.cost.map Cost.total
  | _ => none

/-- Workspace w1 endpoint "myep" with no stored key and no stored headers. -/
def rowBill : EndpointRow := {
  id := "e1".data
  workspaceId := "w1".data
  name := "myep".data
  baseUrl := "https://h:8000".data
  apiType := some "openai".data
  encryptedApiKey := none
  encryptedHeaders := none
  createdBy := none
  createdAt := 0
  updatedAt := 0 }

/-- A custom-endpoint request whose stripped model name collides with the
hosted billable model gpt-4o. -/
def reqBill : ProviderRequest := {
  model := "custom-openai:myep/gpt-4o".data
  workspaceId := some "w1".data }

/-- A request carrying the empty-string response format sentinel. -/
def reqFmt : ProviderRequest := {
  model := "gpt-4o".data
  systemPrompt := some "You are helpful.".data
  responseFormat := some (.str []) }

/-- A custom-openai request naming an endpoint that no workspace row has. -/
def reqGhost : ProviderRequest := {
  model := "custom-openai:ghost/gpt-x".data
  workspaceId := some "w1".data }

/-- Creation parameters carrying an explicitly provided empty-string
apiKey. -/
def cexCreateParams : CreateCustomEndpointParams := {
  id := "e9".data
  workspaceId := "w1".data
  name := "gpu-1".data
  baseUrl := "https://h:8000".data
  apiType := some "openai".data
  apiKey := some []
  headers := none
  createdBy := "u1".data }

/-- Creation parameters with an ordinary non-empty apiKey. -/
def wparams : CreateCustomEndpointParams := {
  id := "e2".data
  workspaceId := "w2".data
  name := "vllm-1".data
  baseUrl := "https://h:8000".data
  apiType := some "openai".data
  apiKey := some "sk-abc".data
  headers := none
  createdBy := "u1".data }

/-- A row whose stored key blob is corrupt (it does not decrypt under
`tableCrypto`) while its header blob decrypts and decodes fine. -/
def rowC5 : EndpointRow := {
  id := "e5".data
  workspaceId := "w1".data
  name := "n1".data
  baseUrl := "b".data
  apiType := some "openai".data
  encryptedApiKey := some "X1".data
  encryptedHeaders := some "EHA".data
  createdBy := none
  createdAt := 0
  updatedAt := 0 }

/-- A row with both secrets stored, for exercising the update path. -/
def rowW : EndpointRow := {
  id := "e1".data
  workspaceId := "w1".data
  name := "n1".data
  baseUrl := "b".data
  apiType := some "openai".data
  encryptedApiKey := some "Ek".data
  encryptedHeaders := some "EHA".data
  createdBy := none
  createdAt := 3
  updatedAt := 3 }

/-- The same row after an empty update at time 9. -/
def rowWupd : EndpointRow := { rowW with updatedAt := 9 }

/-- The record an empty update of `rowW` at time 9 returns. -/
def epW : CustomLlmEndpoint := {
  id := "e1".data
  workspaceId := "w1".data
  name := "n1".data
  baseUrl := "b".data
  apiType := "openai".data
  hasApiKey := true
  headerNames := ["X-Auth".data]
  createdBy := none
  createdAt := 3
  updatedAt := 9 }

/-- A row whose id is the empty string (the store layer accepts any caller
supplied id). -/
def rowC8 : EndpointRow := {
  id := []
  workspaceId := "w".data
  name := "n".data
  baseUrl := "b".data
  apiType := none
  encryptedApiKey := none
  encryptedHeaders := none
  createdBy := none
  createdAt := 0
  updatedAt := 0 }

/-- A stored row named gpu-1 with id I1. -/
def rowC8w : EndpointRow := {
  id := "I1".data
  workspaceId := "w".data
  name := "gpu-1".data
  baseUrl := "b".data
  apiType := none
  encryptedApiKey := none
  encryptedHeaders := none
  createdBy := none
  createdAt := 0
  updatedAt := 0 }

/-- An authenticated workspace admin. -/
def ctxW : RouteCtx := { session := some "u1".data, permission := some "admin".data }

/-- A row with no stored secrets, target of the empty-string-key update. -/
def rowC10 : EndpointRow := {
  id := "e1".data
  workspaceId := "w1".data
  name := "n1".data
  baseUrl := "b".data
  apiType := some "openai".data
  encryptedApiKey := none
  encryptedHeaders := none
  createdBy := none
  createdAt := 2
  updatedAt := 2 }

/-- An update partial that explicitly provides the empty string as the
apiKey (present, neither omitted nor null). -/
def updC10 : UpdateCustomEndpointParams := { apiKey := some (some []) }

/-- Creation parameters with an empty-string apiKey and an empty headers
mapping. -/
def cparamsC10 : CreateCustomEndpointParams := {
  id := "e7".data
  workspaceId := "w7".data
  name := "n7".data
  baseUrl := "b".data
  apiType := none
  apiKey := some []
  headers := some []
  createdBy := "u".data }

/-! ## Helper lemmas -/

theorem strTruthy_of_ne (s : Str) (h : s ≠ []) : strTruthy s = true := by
  cases s with
  | nil => exact absurd rfl h
  | cons a as => rfl

theorem splitAtSlash_eq_none (s : Str) (hs : '/' ∉ s) : splitAtSlash s = none := by
  induction s with
  | nil => rfl
  | cons a as ih =>
    have ha : ¬a = '/' := fun h => hs (h ▸ List.mem_cons_self a as)
    have has : '/' ∉ as := fun h => hs (List.mem_cons_of_mem a h)
    simp [splitAtSlash, ha, ih has]

theorem splitAtSlash_first (e m : Str) (he : '/' ∉ e) :
    splitAtSlash (e ++ '/' :: m) = some (e, m) := by
  induction e with
  | nil => simp [splitAtSlash]
  | cons a as ih =>
    have ha : ¬a = '/' := fun h => he (h ▸ List.mem_cons_self a as)
    have has : '/' ∉ as := fun h => he (List.mem_cons_of_mem a h)
    simp [splitAtSlash, ha, ih has]

theorem isPrefixOf_append_self (tag rest : Str) : tag.isPrefixOf (tag ++ rest) = true := by
  induction tag with
  | nil => simp [List.isPrefixOf]
  | cons a as ih => simp [List.isPrefixOf, ih]

theorem dropFamilyTag_append (tag rest : Str) : dropFamilyTag tag (tag ++ rest) = rest := by
  simp [dropFamilyTag, isPrefixOf_append_self, List.drop_left]

/-- C3: the compound-model parser strips a leading family tag exactly when
present and splits the remainder at its first slash.  The four conjuncts
cover every input string — any input either starts with the `FAM:` tag or
not, and the (stripped) remainder either contains a slash, in which case it
decomposes uniquely as `e ++ '/' :: m` with a slash-free `e` (the part
before the first slash) and an arbitrary `m` (further slashes stay in the
model name), or it contains none: tagged `FAM:e/m` parses to (e, m); a
tagged remainder without a slash yields an empty endpoint name and the
whole remainder as the model name; an untagged input `e2/m2` splits the
same way at its first slash; and an untagged input without a slash is
returned whole with an empty endpoint name.  The parser is total by
construction (a Lean function into `ParsedCustomModel`), so it returns a
pair for every input and never fails. -/
theorem parseCustomModelRef_spec (fam e m rem s e2 m2 : Str)
    (he : '/' ∉ e) (hrem : '/' ∉ rem) (hs : '/' ∉ s)
    (hnp : (fam ++ [':']).isPrefixOf s = false)
    (he2 : '/' ∉ e2)
    (hnp2 : (fam ++ [':']).isPrefixOf (e2 ++ '/' :: m2) = false) :
    parseCustomModelRef fam ((fam ++ [':']) ++ (e ++ '/' :: m)) =
      { endpointName := e, modelName := m } ∧
    parseCustomModelRef fam ((fam ++ [':']) ++ rem) =
      { endpointName := [], modelName := rem } ∧
    parseCustomModelRef fam (e2 ++ '/' :: m2) =
      { endpointName := e2, modelName := m2 } ∧
    parseCustomModelRef fam s = { endpointName := [], modelName := s } := by
  refine ⟨?_, ?_, ?_, ?_⟩
  · simp only [parseCustomModelRef]
    rw [dropFamilyTag_append, splitAtSlash_first e m he]
  · simp only [parseCustomModelRef]
    rw [dropFamilyTag_append, splitAtSlash_eq_none rem hrem]
  · simp [parseCustomModelRef, dropFamilyTag, hnp2, splitAtSlash_first e2 m2 he2]
  · simp [parseCustomModelRef, dropFamilyTag, hnp, splitAtSlash_eq_none s hs]

theorem parseCustomModelRef_spec_witness :
    parseCustomModelRef "custom-openai".data
        (("custom-openai".data ++ [':']) ++ ("vllm-1".data ++ '/' :: "meta/llama-3".data)) =
      { endpointName := "vllm-1".data, modelName := "meta/llama-3".data } ∧
    parseCustomModelRef "custom-openai".data (("custom-openai".data ++ [':']) ++ "gpt-4".data) =
      { endpointName := [], modelName := "gpt-4".data } ∧
    parseCustomModelRef "custom-openai".data ("myep".data ++ '/' :: "llama".data) =
      { endpointName := "myep".data, modelName := "llama".data } ∧
    parseCustomModelRef "custom-openai".data "plain-model".data =
      { endpointName := [], modelName := "plain-model".data } :=
  parseCustomModelRef_spec "custom-openai".data "vllm-1".data "meta/llama-3".data
    "gpt-4".data "plain-model".data "myep".data "llama".data
    (by decide) (by decide) (by decide) (by decide) (by decide) (by decide)

theorem resolveStep_missing_endpoint (env : DispatchEnv) (c : Crypto) (db : DB)
    (providerId : Str) (request r1 : ProviderRequest) (ws epName : Str)
    (hfam : providerId = "custom-openai".data ∨ providerId = "custom-anthropic".data ∨
      providerId = "custom-google".data)
    (hws : request.workspaceId = some ws) (hwsne : ws ≠ [])
    (hparse : (parseCustomModelRef providerId request.model).endpointName = epName)
    (hne : epName ≠ [])
    (hmiss : getCustomEndpointByName c db ws epName = none) :
    resolveStep env c db providerId request r1 = .error (endpointNotFoundMessage epName) := by
  have hwt : optStrTruthy request.workspaceId = true := by
    rw [hws]; exact strTruthy_of_ne ws hwsne
  have hge : request.workspaceId.getD [] = ws := by rw [hws]; rfl
  rcases hfam with h | h | h <;> subst h <;>
    simp +decide [resolveStep, hwt, hge, parseCustomOpenAIModel, parseCustomAnthropicModel,
      parseCustomGoogleModel, hparse, strTruthy_of_ne epName hne, hmiss]

/-- C2: for a request to any of the three custom families carrying a
workspace, whose parsed model reference yields a non-empty endpoint name
matching no endpoint of that workspace, the dispatcher rejects with the
fatal error naming the missing endpoint and the trace of outbound executor
invocations is empty — the provider's executeRequest is never reached and
no fallback endpoint is substituted. -/
theorem dispatch_missing_endpoint_fatal (env : DispatchEnv) (c : Crypto) (db : DB)
    (providerId : Str) (request : ProviderRequest) (prov : Provider)
    (exec : ProviderRequest → ExecResult) (ws epName : Str)
    (hfam : providerId = "custom-openai".data ∨ providerId = "custom-anthropic".data ∨
      providerId = "custom-google".data)
    (hreg : env.registry providerId = some prov)
    (hexec : prov.executeRequest = some exec)
    (hws : request.workspaceId = some ws) (hwsne : ws ≠ [])
    (hparse : (parseCustomModelRef providerId request.model).endpointName = epName)
    (hne : epName ≠ [])
    (hmiss : getCustomEndpointByName c db ws epName = none) :
    executeProviderRequest env c db providerId request =
      (.error (endpointNotFoundMessage epName), []) := by
  have hres := resolveStep_missing_endpoint env c db providerId request
    (sanitizeRequest env request) ws epName hfam hws hwsne hparse hne hmiss
  simp [executeProviderRequest, hreg, hexec, hres]

theorem dispatch_missing_endpoint_fatal_witness :
    executeProviderRequest testEnv tableCrypto [] "custom-openai".data reqGhost =
      (.error (endpointNotFoundMessage "ghost".data), []) :=
  dispatch_missing_endpoint_fatal testEnv tableCrypto [] "custom-openai".data reqGhost
    { executeRequest := some echoProviderExec } echoProviderExec "w1".data "ghost".data
    (Or.inl rfl) rfl rfl rfl (by decide) (by decide) (by decide) (by decide)

/-- C1 is violated by the code: a request resolved through a custom
endpoint (the trace shows the merged base URL of workspace w1's endpoint
"myep") whose stripped model name coincides with a hosted billable model
(gpt-4o) is billed a nonzero cost.total, because the custom-family
resolution branches never set the isBYOK flag and the billing guard
thereafter consults only shouldBillModelUsage of the response's model
name. -/
theorem customEndpoint_billing_bypass_violated :
    (executeProviderRequest testEnv tableCrypto [rowBill] "custom-openai".data reqBill).2.map
      (fun q => q.customOpenaiBaseUrl) = [some "https://h:8000".data] ∧
    dispatchedCostTotal
      (executeProviderRequest testEnv tableCrypto [rowBill] "custom-openai".data reqBill) =
      some 15 ∧ (15 : Int) ≠ 0 :=
  ⟨by decide, by decide, by decide⟩

/-- C7 is violated by the code: an empty-string responseFormat is falsy in
JavaScript, so the whole structured-output block — including the branch
that was written to clear the field — is skipped, and the executor receives
the request with responseFormat still set to the empty string; the system
prompt is left unchanged (no instructions are appended), even though the
instruction generator of the environment would produce non-empty
instructions for any format it is asked about. -/
theorem empty_responseFormat_not_cleared :
    (executeProviderRequest testEnv tableCrypto [] "openai".data reqFmt).2.map
      (fun q => (q.responseFormat, q.systemPrompt)) =
      [(some (ResponseFormat.str []), some "You are helpful.".data)] := by decide

theorem strTruthy_iff (s : Str) : strTruthy s = true ↔ s ≠ [] := by
  cases s <;> simp [strTruthy]

theorem createCustomEndpoint_ok (c : Crypto) (now : Nat) (db db' : DB)
    (p : CreateCustomEndpointParams) (ep : CustomLlmEndpoint)
    (hok : createCustomEndpoint c now db p = .ok (db', ep)) :
    db.any (fun r => r.id == p.id || (r.workspaceId == p.workspaceId && r.name == p.name)) = false ∧
    db' = db ++ [createdRow c now p] ∧ ep = createdEndpointView c now p := by
  unfold createCustomEndpoint at hok
  split at hok
  · simp at hok
  · rename_i hguard
    injection hok with h
    refine ⟨by simpa using hguard, ?_, ?_⟩
    · exact (congrArg Prod.fst h).symm
    · exact (congrArg Prod.snd h).symm

/-- C4 as stated is false: with `tableCrypto` (whose decryption inverts its
encryption), creating with an explicitly provided empty-string apiKey
succeeds, yet the subsequent resolution by name returns a null apiKey —
not the provided params.apiKey, which was not omitted — because the
create path's JavaScript truthiness check treats the empty string like an
absent key. -/
theorem create_resolve_roundtrip_counterexample :
    cexCreateParams.apiKey = some [] ∧
    ((createCustomEndpoint tableCrypto 7 [] cexCreateParams).toOption.bind
      (fun res => (getCustomEndpointByName tableCrypto res.1 "w1".data "gpu-1".data).map
        (fun rec => rec.apiKey))) = some none := by decide

/-- C4 amended: after a successful create, resolution by the same workspace
and name returns the created base URL, and an apiKey equal to params.apiKey
when it was provided non-empty — and null when it was omitted or the empty
string (create stores a falsy key as absent).  The hypotheses state the
encryption contract: decryption inverts encryption and ciphertexts are
non-empty. -/
theorem create_then_resolveByName (c : Crypto) (now : Nat) (db db' : DB)
    (p : CreateCustomEndpointParams) (ep : CustomLlmEndpoint)
    (hinv : ∀ s, c.decryptSecret (c.encryptSecret s) = some s)
    (henc : ∀ s, c.encryptSecret s ≠ [])
    (hok : createCustomEndpoint c now db p = .ok (db', ep)) :
    (getCustomEndpointByName c db' p.workspaceId p.name).map (fun rec => rec.baseUrl) =
      some p.baseUrl ∧
    (getCustomEndpointByName c db' p.workspaceId p.name).map (fun rec => rec.apiKey) =
      some (match p.apiKey with
        | some k => if k = [] then none else some k
        | none => none) := by
  obtain ⟨hguard, hdb, -⟩ := createCustomEndpoint_ok c now db db' p ep hok
  subst hdb
  have hnone : db.find? (rowMatchesWsName p.workspaceId p.name) = none := by
    rw [List.find?_eq_none]
    intro x hx
    have h2 := (List.any_eq_false.mp hguard) x hx
    simp only [Bool.or_eq_true, not_or] at h2
    simp only [rowMatchesWsName]
    exact h2.2
  have hmatch : rowMatchesWsName p.workspaceId p.name (createdRow c now p) = true := by
    simp [rowMatchesWsName, createdRow]
  have hfind : (db ++ [createdRow c now p]).find? (rowMatchesWsName p.workspaceId p.name) =
      some (createdRow c now p) := by
    rw [List.find?_append, hnone, Option.none_or, List.find?_cons_of_pos _ hmatch]
  constructor
  · simp only [getCustomEndpointByName]
    rw [hfind]
    simp [createdRow]
  · simp only [getCustomEndpointByName]
    rw [hfind]
    cases hA : p.apiKey with
    | none => simp [createdRow, decryptOptionalSecret, hA]
    | some k =>
      by_cases hk : k = []
      · subst hk
        simp [createdRow, decryptOptionalSecret, hA]
      · have hkemp : k.isEmpty = false := by
          cases k with
          | nil => exact absurd rfl hk
          | cons a as => rfl
        have hcemp : (c.encryptSecret k).isEmpty = false := by
          have := henc k
          cases hc : c.encryptSecret k with
          | nil => exact absurd hc this
          | cons a as => rfl
        simp [createdRow, decryptOptionalSecret, hA, hk, hkemp, hcemp, hinv k]

theorem create_then_resolveByName_witness :
    (getCustomEndpointByName tableCrypto ([] ++ [createdRow tableCrypto 7 wparams])
      wparams.workspaceId wparams.name).map (fun rec => rec.baseUrl) =
      some wparams.baseUrl ∧
    (getCustomEndpointByName tableCrypto ([] ++ [createdRow tableCrypto 7 wparams])
      wparams.workspaceId wparams.name).map (fun rec => rec.apiKey) =
      some (some "sk-abc".data) := by
  have h := create_then_resolveByName tableCrypto 7 [] ([] ++ [createdRow tableCrypto 7 wparams])
    wparams (createdEndpointView tableCrypto 7 wparams)
    (fun s => by simp [tableCrypto]) (fun s => by simp [tableCrypto]) rfl
  exact ⟨h.1, h.2.trans (by decide)⟩

/-- C5: resolution by name and by id is total on a found row (`some` is
always returned, decryption failures never raise) and decrypts the two
secret fields independently: the returned apiKey is a function of the
stored key blob alone and the returned headers of the stored header blob
alone, each degrading to null exactly when its own guarded decryption
fails. -/
theorem resolution_decrypts_fields_independently (c : Crypto) (db : DB)
    (ws n eid : Str) (r r' : EndpointRow)
    (h1 : db.find? (rowMatchesWsName ws n) = some r)
    (h2 : db.find? (rowMatchesId eid) = some r') :
    (getCustomEndpointByName c db ws n).map (fun rec => rec.apiKey) =
      some (decryptOptionalSecret c r.encryptedApiKey) ∧
    (getCustomEndpointByName c db ws n).map (fun rec => rec.headers) =
      some (decryptOptionalHeaders c r.encryptedHeaders) ∧
    (getCustomEndpointById c db eid).map (fun rec => rec.apiKey) =
      some (decryptOptionalSecret c r'.encryptedApiKey) ∧
    (getCustomEndpointById c db eid).map (fun rec => rec.headers) =
      some (decryptOptionalHeaders c r'.encryptedHeaders) := by
  simp [getCustomEndpointByName, getCustomEndpointById, h1, h2]

theorem resolution_decrypts_fields_independently_witness :
    (getCustomEndpointByName tableCrypto [rowC5] "w1".data "n1".data).map
      (fun rec => rec.apiKey) = some none ∧
    (getCustomEndpointByName tableCrypto [rowC5] "w1".data "n1".data).map
      (fun rec => rec.headers) = some (some hdrA) := by
  have h := resolution_decrypts_fields_independently tableCrypto [rowC5] "w1".data "n1".data
    "e5".data rowC5 rowC5 (by decide) (by decide)
  exact ⟨h.1.trans (by decide), h.2.1.trans (by decide)⟩

/-- C6: on a successful update of an existing row, each stored field
changes only when present in the partial; a present-but-null apiKey or
headers clears the stored blob (hasApiKey becomes false, headerNames
becomes empty); with headers absent from the partial the returned
headerNames are recovered by decrypting the stored blob, degrading to the
empty list on failure; and updatedAt is refreshed on both the stored row
and the returned record. -/
theorem updateCustomEndpoint_semantics (c : Crypto) (now : Nat) (db db' : DB)
    (endpointId : Str) (p : UpdateCustomEndpointParams) (r : EndpointRow)
    (ep : CustomLlmEndpoint)
    (hfind : db.find? (rowMatchesId endpointId) = some r)
    (hok : updateCustomEndpoint c now db endpointId p = .ok (db', ep)) :
    (p.name = none → (applyEndpointUpdates c now p r).name = r.name) ∧
    (p.baseUrl = none → (applyEndpointUpdates c now p r).baseUrl = r.baseUrl) ∧
    (p.apiKey = none → (applyEndpointUpdates c now p r).encryptedApiKey = r.encryptedApiKey) ∧
    (p.headers = none → (applyEndpointUpdates c now p r).encryptedHeaders = r.encryptedHeaders) ∧
    (p.apiKey = some none → (applyEndpointUpdates c now p r).encryptedApiKey = none ∧
      ep.hasApiKey = false) ∧
    (p.headers = some none → (applyEndpointUpdates c now p r).encryptedHeaders = none ∧
      ep.headerNames = []) ∧
    (p.headers = none → ep.headerNames =
      (match decryptOptionalHeaders c r.encryptedHeaders with
       | some hs => hs.map (fun kv => kv.1)
       | none => [])) ∧
    (applyEndpointUpdates c now p r).updatedAt = now ∧
    ep.updatedAt = now ∧
    db' = db.map (fun row => if rowMatchesId endpointId row then
      applyEndpointUpdates c now p row else row) := by
  have hpair : db' = db.map (fun row => if rowMatchesId endpointId row then
      applyEndpointUpdates c now p row else row) ∧ ep = updatedEndpointView c now p r := by
    unfold updateCustomEndpoint at hok
    rw [hfind] at hok
    injection hok with h
    exact ⟨(congrArg Prod.fst h).symm, (congrArg Prod.snd h).symm⟩
  obtain ⟨hdb, hep⟩ := hpair
  subst hep
  refine ⟨?_, ?_, ?_, ?_, ?_, ?_, ?_, ?_, ?_, hdb⟩
  · intro h; simp [applyEndpointUpdates, h]
  · intro h; simp [applyEndpointUpdates, h]
  · intro h; simp [applyEndpointUpdates, h]
  · intro h; simp [applyEndpointUpdates, h]
  · intro h
    refine ⟨by simp [applyEndpointUpdates, h], ?_⟩
    simp [updatedEndpointView, applyEndpointUpdates, h, optStrTruthy]
  · intro h
    refine ⟨by simp [applyEndpointUpdates, h], ?_⟩
    simp [updatedEndpointView, updatedHeaderNames, h]
  · intro h; simp [updatedEndpointView, updatedHeaderNames, h]
  · simp [applyEndpointUpdates]
  · simp [updatedEndpointView, applyEndpointUpdates]

theorem updateCustomEndpoint_semantics_witness :
    (applyEndpointUpdates tableCrypto 9 {} rowW).encryptedApiKey = rowW.encryptedApiKey ∧
    epW.headerNames =
      (match decryptOptionalHeaders tableCrypto rowW.encryptedHeaders with
       | some hs => hs.map (fun kv => kv.1)
       | none => []) ∧
    epW.updatedAt = 9 := by
  have h := updateCustomEndpoint_semantics tableCrypto 9 [rowW] [rowWupd] "e1".data {} rowW epW
    (by decide) rfl
  exact ⟨h.2.2.1 rfl, h.2.2.2.2.2.2.1 rfl, h.2.2.2.2.2.2.2.2.1⟩

/-- C8 as stated is false at the boundary where excludeId is provided as
the empty string: the store row with the empty id is the only
(workspace, name) match and its id equals the excludeId, so the claimed
iff demands true, but the function returns false — JavaScript truthiness
discards a falsy (empty-string) excludeId before comparing. -/
theorem isEndpointNameAvailable_counterexample :
    isEndpointNameAvailable [rowC8] "w".data "n".data (some []) = false ∧
    rowMatchesWsName "w".data "n".data rowC8 = true ∧
    (∀ r ∈ [rowC8], rowMatchesWsName "w".data "n".data r = true → r.id = ([] : Str)) := by
  decide

/-- C8 amended: under the (workspace, name) unique index, the availability
check returns true iff no stored row matches the pair, or excludeId was
provided non-empty and the matching row carries exactly that id. -/
theorem isEndpointNameAvailable_spec (db : DB) (ws n : Str) (excludeId : Option Str)
    (huniq : ∀ r1 ∈ db, ∀ r2 ∈ db,
      rowMatchesWsName ws n r1 = true → rowMatchesWsName ws n r2 = true → r1 = r2) :
    (isEndpointNameAvailable db ws n excludeId = true ↔
      ((∀ r ∈ db, rowMatchesWsName ws n r = false) ∨
       (∃ e, excludeId = some e ∧ e ≠ [] ∧
         ∀ r ∈ db, rowMatchesWsName ws n r = true → r.id = e))) := by
  unfold isEndpointNameAvailable
  cases hfind : db.find? (rowMatchesWsName ws n) with
  | none =>
    have hall : ∀ r ∈ db, rowMatchesWsName ws n r = false := by
      intro r hr
      have := List.find?_eq_none.mp hfind r hr
      simpa using this
    constructor
    · intro _; exact Or.inl hall
    · intro _; rfl
  | some r0 =>
    have hr0mem := List.mem_of_find?_eq_some hfind
    have hr0p := List.find?_some hfind
    cases excludeId with
    | none =>
      constructor
      · intro hcontra; exact absurd hcontra (by simp)
      · rintro (hall | ⟨e, he, hene, hid⟩)
        · rw [hall r0 hr0mem] at hr0p; exact absurd hr0p (by simp)
        · exact absurd he (by simp)
    | some ex =>
      constructor
      · intro h
        have h' : strTruthy ex = true ∧ (r0.id == ex) = true := by
          simpa [Bool.and_eq_true] using h
        refine Or.inr ⟨ex, rfl, (strTruthy_iff ex).mp h'.1, ?_⟩
        intro r hr hmatch
        have hr0 : r = r0 := huniq r hr r0 hr0mem hmatch hr0p
        rw [hr0]
        exact eq_of_beq h'.2
      · rintro (hall | ⟨e, he, hene, hid⟩)
        · rw [hall r0 hr0mem] at hr0p; exact absurd hr0p (by simp)
        · have hee : ex = e := by injection he
          subst hee
          have hid0 : r0.id = ex := hid r0 hr0mem hr0p
          show (strTruthy ex && (r0.id == ex)) = true
          rw [Bool.and_eq_true]
          exact ⟨(strTruthy_iff ex).mpr hene, by rw [hid0]; simp⟩

theorem isEndpointNameAvailable_spec_witness :
    isEndpointNameAvailable [rowC8w] "w".data "gpu-1".data (some "I1".data) = true ∧
    isEndpointNameAvailable [rowC8w] "w".data "gpu-1".data none = false := by
  refine ⟨?_, by decide⟩
  exact (isEndpointNameAvailable_spec [rowC8w] "w".data "gpu-1".data (some "I1".data)
    (by decide)).mpr (Or.inr ⟨"I1".data, rfl, by decide, by decide⟩)

/-- C9: for an authenticated admin request to the per-endpoint routes, a
nonexistent endpoint id and an existing id belonging to another workspace
produce the identical 404 "Endpoint not found" response on GET, PATCH and
DELETE (PATCH and DELETE also leave the table unchanged), so existence is
not leaked across workspaces. -/
theorem endpoint_routes_uniform_not_found (c : Crypto) (now : Nat) (db : DB)
    (ctx : RouteCtx) (ws eid : Str) (body : Except Str UpdateCustomEndpointParams)
    (hsession : optStrTruthy ctx.session = true)
    (hadmin : ctx.permission = some "admin".data)
    (hnf : getCustomEndpointById c db eid = none ∨
      ∃ ep, getCustomEndpointById c db eid = some ep ∧ ep.workspaceId ≠ ws) :
    endpointRouteGET c db ctx ws eid = .failure 404 "Endpoint not found".data ∧
    endpointRoutePATCH c now db ctx ws eid body =
      (.failure 404 "Endpoint not found".data, db) ∧
    endpointRouteDELETE c db ctx ws eid =
      (.failure 404 "Endpoint not found".data, db) := by
  have hpermv : optStrTruthy (some "admin".data) = true := rfl
  rcases hnf with hnone | ⟨ep0, hep, hws⟩
  · simp [endpointRouteGET, endpointRoutePATCH, endpointRouteDELETE,
      hsession, hadmin, hpermv, hnone]
  · simp [endpointRouteGET, endpointRoutePATCH, endpointRouteDELETE,
      hsession, hadmin, hpermv, hep, hws]

theorem endpoint_routes_uniform_not_found_witness :
    endpointRouteGET tableCrypto [] ctxW "w1".data "ghost".data =
      .failure 404 "Endpoint not found".data ∧
    endpointRoutePATCH tableCrypto 0 [] ctxW "w1".data "ghost".data (.ok {}) =
      (.failure 404 "Endpoint not found".data, []) ∧
    endpointRouteDELETE tableCrypto [] ctxW "w1".data "ghost".data =
      (.failure 404 "Endpoint not found".data, []) :=
  endpoint_routes_uniform_not_found tableCrypto 0 [] ctxW "w1".data "ghost".data (.ok {})
    rfl rfl (Or.inl (by decide))

/-- C10's closing consequence ("no endpoint is ever stored with an
encrypted empty-string secret") is false for the store as a whole: the
update path's tri-state check tests only presence and null, not
truthiness, so update(id, apiKey = "") encrypts the empty string verbatim
and the stored blob becomes exactly the encryption of the empty string. -/
theorem create_empty_secret_counterexample :
    (updateCustomEndpoint tableCrypto 4 [rowC10] "e1".data updC10).toOption.map
      (fun res => res.1.map (fun r => r.encryptedApiKey)) =
      some [some (tableCrypto.encryptSecret [])] ∧
    tableCrypto.encryptSecret [] = "E".data := by decide

/-- C10 amended: in createCustomEndpoint an empty-string apiKey behaves
exactly like an omitted one (nothing encrypted, null stored, hasApiKey
false), an empty headers mapping is stored as absent with empty
headerNames, and creation therefore never stores an encrypted
empty-string secret — though the update path can, as the counterexample
shows. -/
theorem createCustomEndpoint_empty_secret_semantics (c : Crypto) (now : Nat)
    (db db' : DB) (p : CreateCustomEndpointParams) (ep : CustomLlmEndpoint)
    (hok : createCustomEndpoint c now db p = .ok (db', ep))
    (hkey : p.apiKey = none ∨ p.apiKey = some [])
    (hhdr : p.headers = none ∨ p.headers = some []) :
    ep.hasApiKey = false ∧ ep.headerNames = [] ∧
    (createdRow c now p).encryptedApiKey = none ∧
    (createdRow c now p).encryptedHeaders = none ∧
    db' = db ++ [createdRow c now p] := by
  obtain ⟨-, hdb, hep⟩ := createCustomEndpoint_ok c now db db' p ep hok
  subst hep
  have hkeyEq : (createdRow c now p).encryptedApiKey = none := by
    rcases hkey with h | h <;> simp [createdRow, h]
  have hhdrEq : (createdRow c now p).encryptedHeaders = none := by
    rcases hhdr with h | h <;> simp [createdRow, h]
  refine ⟨?_, ?_, hkeyEq, hhdrEq, hdb⟩
  · simp [createdEndpointView, hkeyEq, optStrTruthy]
  · rcases hhdr with h | h <;> simp [createdEndpointView, createdHeaderNames, h]

theorem createCustomEndpoint_empty_secret_witness :
    (createdEndpointView tableCrypto 1 cparamsC10).hasApiKey = false ∧
    (createdEndpointView tableCrypto 1 cparamsC10).headerNames = [] ∧
    (createdRow tableCrypto 1 cparamsC10).encryptedApiKey = none ∧
    (createdRow tableCrypto 1 cparamsC10).encryptedHeaders = none ∧
    ([] : DB) ++ [createdRow tableCrypto 1 cparamsC10] =
      [] ++ [createdRow tableCrypto 1 cparamsC10] := by
  have h := createCustomEndpoint_empty_secret_semantics tableCrypto 1 []
    ([] ++ [createdRow tableCrypto 1 cparamsC10]) cparamsC10
    (createdEndpointView tableCrypto 1 cparamsC10) rfl
    (Or.inr rfl) (Or.inr rfl)
  exact ⟨h.1, h.2.1, h.2.2.1, h.2.2.2.1, rfl⟩

end SimCustomLlm
